import Mathlib

/-!
Shallow embedding of the consume-transform-apply-commit pipeline of
`src/db.mjs` and `src/consumer.mjs`.

JavaScript strings are modelled as lists of UTF-16 code units
(`List Nat`); bytes of a `Buffer` are modelled as `List Nat` with
entries below 256.  Code point 45 is the hyphen `-`, 48–57 are the
digits `0`–`9`, 65–90 the letters `A`–`Z`, 97–122 the letters `a`–`z`.
-/

namespace MskDemo

/-- Code points of a Lean string literal, used to write concrete
JavaScript strings readably. -/
def codes (s : String) : List Nat :=
  s.toList.map Char.toNat

/-- JavaScript `toLowerCase` on one ASCII code unit: maps `A`–`Z`
(65–90) to `a`–`z` by adding 32 and leaves everything else unchanged,
as in the source's use on hexadecimal identifier strings. -/
def jsToLower (c : Nat) : Nat :=
  if 65 ≤ c ∧ c ≤ 90 then c + 32 else c

/-- Character class `[0-9a-f]` of the regular expression in `parse`
(src/db.mjs line 22), applied after lower-casing. -/
def isLowerHexChar (c : Nat) : Bool :=
  (48 ≤ c && c ≤ 57) || (97 ≤ c && c ≤ 102)

/-- Numeric value of a lower-case hexadecimal digit, as used by
`Buffer.from(hex, 'hex')`. -/
def hexVal (c : Nat) : Nat :=
  if c ≤ 57 then c - 48 else c - 87

/-- Lower-case hexadecimal digit of a value below 16, as produced by
`buf.toString('hex')`. -/
def hexCharOf (n : Nat) : Nat :=
  if n < 10 then 48 + n else 87 + n

/-- `Buffer.from(hex, 'hex')` (src/db.mjs line 25): consume the
hexadecimal string two digits at a time, producing one byte per pair. -/
def hexToBytes : List Nat → List Nat
  | c1 :: c2 :: rest => (16 * hexVal c1 + hexVal c2) :: hexToBytes rest
  | [_] => []
  | [] => []

/-- `buf.toString('hex')` (src/db.mjs line 29): two lower-case
hexadecimal digits per byte. -/
def bytesToHex : List Nat → List Nat
  | [] => []
  | b :: rest => hexCharOf (b / 16) :: hexCharOf (b % 16) :: bytesToHex rest

/-- Hyphen stripping and lower-casing of src/db.mjs line 21 (a global
hyphen replace followed by `toLowerCase`): drop every hyphen
(code 45), then lower-case. -/
def hexForm (uuid : List Nat) : List Nat :=
  (uuid.filter (fun c => c ≠ 45)).map jsToLower

/-- `parse` from src/db.mjs lines 20–26: strip hyphens and lower-case,
require exactly 32 characters of `[0-9a-f]`, throw `Invalid UUID`
otherwise, and return the 16-byte buffer on success. -/
def parse (uuid : List Nat) : Except String (List Nat) :=
  if (hexForm uuid).length = 32 ∧ (hexForm uuid).all isLowerHexChar then
    Except.ok (hexToBytes (hexForm uuid))
  else
    Except.error "Invalid UUID"

/-- `stringify` from src/db.mjs lines 28–37: hexadecimal form of the
16-byte buffer with hyphens inserted after digits 8, 12, 16 and 20. -/
def stringify (buf : List Nat) : List Nat :=
  let hex := bytesToHex buf
  hex.take 8 ++ 45 :: (hex.drop 8).take 4 ++ 45 :: (hex.drop 12).take 4
    ++ 45 :: (hex.drop 16).take 4 ++ 45 :: hex.drop 20

/-- Character class of hexadecimal digits as they may appear in the
external identifier form before lower-casing: `0`–`9`, `a`–`f` or
`A`–`F`. -/
def isUuidHexChar (c : Nat) : Bool :=
  isLowerHexChar c || (65 ≤ c && c ≤ 70)

/-- The canonical external identifier form of the spec: five
hyphen-separated groups of 8, 4, 4, 4 and 12 hexadecimal digits,
case-insensitive. -/
def IsCanonicalUuid (s : List Nat) : Prop :=
  ∃ g1 g2 g3 g4 g5 : List Nat,
    g1.length = 8 ∧ g2.length = 4 ∧ g3.length = 4 ∧ g4.length = 4 ∧
    g5.length = 12 ∧
    (g1 ++ g2 ++ g3 ++ g4 ++ g5).all isUuidHexChar = true ∧
    s = g1 ++ 45 :: g2 ++ 45 :: g3 ++ 45 :: g4 ++ 45 :: g5

/-- A JavaScript error as inspected by the retry classifier: `err?.code`
is an optional string property and `err?.errno` an optional numeric
property; a plain `new Error(...)` (such as the `Invalid UUID` error of
`parse`) has neither. -/
structure DbError where
  code : Option String
  errno : Option Int
deriving DecidableEq, Repr

/-- `retryableCodes` from src/consumer.mjs lines 20–27. -/
def retryableCodes : List String :=
  ["PROTOCOL_CONNECTION_LOST", "ECONNREFUSED", "ETIMEDOUT", "EPIPE",
   "ECONNRESET", "PROTOCOL_ENQUEUE_AFTER_FATAL_ERROR"]

/-- `retryableErrnos` from src/consumer.mjs line 30: MySQL errno 1205
(lock wait timeout) and 1213 (deadlock). -/
def retryableErrnos : List Int :=
  [1205, 1213]

/-- `isRetryable` from src/consumer.mjs lines 18–33: the error's `code`
is in the retryable code set or its `errno` in the retryable errno set;
a missing property is in neither set. -/
def isRetryable (e : DbError) : Bool :=
  (match e.code with
   | some c => decide (c ∈ retryableCodes)
   | none => false) ||
  (match e.errno with
   | some n => decide (n ∈ retryableErrnos)
   | none => false)

/-- Options passed to `pRetry` in src/consumer.mjs lines 64–76:
`retries`, `factor`, `minTimeout`, `maxTimeout` (milliseconds), with
`randomize: false` reflected in the absence of any jitter term in
`backoffWait`. -/
structure RetryOpts where
  retries : Nat
  factor : Nat
  minTimeout : Nat
  maxTimeout : Nat
deriving DecidableEq, Repr

/-- The concrete options of the consumer: 2 retries, factor 2, minimum
2000 ms, maximum 5000 ms. -/
def consumerRetryOpts : RetryOpts :=
  { retries := 2, factor := 2, minTimeout := 2000, maxTimeout := 5000 }

/-- Deterministic wait before retry `k` (0-based) of the `retry`
backoff with `randomize: false`:
`min(minTimeout * factor ^ k, maxTimeout)`. -/
def backoffWait (o : RetryOpts) (k : Nat) : Nat :=
  min (o.minTimeout * o.factor ^ k) o.maxTimeout

/-- Outcome of one execution of the wrapped operation (one
`upsertOrder` call): it either resolves or rejects with an error. -/
inductive Attempt where
  | ok : Attempt
  | fail : DbError → Attempt
deriving DecidableEq, Repr

/-- Result of the `pRetry` execution, recording the number of attempts
made and the backoff waits slept between them: `success` when some
attempt resolved, `aborted` when an attempt rejected with an error the
handler wrapped in `AbortError` (no further attempts), `exhausted` when
every allowed attempt rejected with a retryable error. -/
inductive PRetryResult where
  | success : Nat → List Nat → PRetryResult
  | aborted : DbError → Nat → List Nat → PRetryResult
  | exhausted : DbError → Nat → List Nat → PRetryResult
deriving DecidableEq, Repr

/-- One step of `pRetry` over the operation of src/consumer.mjs lines
52–63: attempt `idx` (0-based) runs the operation; on success stop; on
a non-retryable error abort immediately (`AbortError`); on a retryable
error sleep `backoffWait o idx` and retry while retries remain,
otherwise give up exhausted.  `acc` collects the waits most recent
first. -/
def runPRetryAux (o : RetryOpts) (op : Nat → Attempt)
    (retriesLeft idx : Nat) (acc : List Nat) : PRetryResult :=
  match op idx with
  | Attempt.ok => PRetryResult.success (idx + 1) acc.reverse
  | Attempt.fail e =>
    if isRetryable e then
      match retriesLeft with
      | 0 => PRetryResult.exhausted e (idx + 1) acc.reverse
      | rl + 1 => runPRetryAux o op rl (idx + 1) (backoffWait o idx :: acc)
    else
      PRetryResult.aborted e (idx + 1) acc.reverse

/-- The full `pRetry(operation, opts)` call of src/consumer.mjs lines
52–77. -/
def runPRetry (o : RetryOpts) (op : Nat → Attempt) : PRetryResult :=
  runPRetryAux o op o.retries 0 []

/-- Number of attempts actually made. -/
def attemptsOf : PRetryResult → Nat
  | PRetryResult.success n _ => n
  | PRetryResult.aborted _ n _ => n
  | PRetryResult.exhausted _ n _ => n

/-- Whether the `pRetry` promise resolved. -/
def isSuccess : PRetryResult → Bool
  | PRetryResult.success _ _ => true
  | _ => false

/-- Fields destructured by `upsertOrder` (src/db.mjs line 46) with the
destructuring defaults `currency = 'USD'` and `isDeleted = false`
represented as optional fields; `totalAmount` is modelled as a
fixed-point integer. -/
structure OrderInput where
  orderId : List Nat
  partnerId : String
  status : String
  totalAmount : Int
  currency : Option String
  isDeleted : Option Bool
deriving DecidableEq, Repr

/-- A row of the `orders_ops` table.  `is_deleted` holds the stored
`0`/`1` produced by `isDeleted ? 1 : 0`. -/
structure Row where
  partner_id : String
  status : String
  total_amount : Int
  currency : String
  is_deleted : Nat
  created_ts : Nat
  updated_ts : Nat
deriving DecidableEq, Repr

/-- The `orders_ops` table: rows keyed by the 16-byte `order_id`
primary key. -/
abbrev Table := List (List Nat × Row)

/-- Primary-key lookup in the table. -/
def findRow (key : List Nat) : Table → Option Row
  | [] => none
  | (k, r) :: rest => if k = key then some r else findRow key rest

/-- Primary-key write: replace the row under `key` if present,
otherwise append a new row. -/
def setRow (key : List Nat) (r : Row) : Table → Table
  | [] => [(key, r)]
  | (k, r0) :: rest =>
    if k = key then (key, r) :: rest else (k, r0) :: setRow key r rest

/-- `upsertOrder` from src/db.mjs lines 46–69: encode the identifier
with `parse` (its `Invalid UUID` error propagates), then run the single
`INSERT ... ON DUPLICATE KEY UPDATE` statement against `orders_ops`.
The statement's row-level semantics follow the SQL text: on a fresh
key the row is inserted with the six given values; on a duplicate key
exactly `partner_id`, `status`, `total_amount`, `currency` and
`is_deleted` are replaced and `updated_ts` is set to the write time.
The `orders_ops` DDL is not part of the repository, so the timestamp
columns are Modelled from the spec: `created_ts` is set once at first
insert by the store and never updated thereafter, `updated_ts` is set
by the store on every insert or update to the time of that write.
`now` is the write time of this statement. -/
def upsertOrder (now : Nat) (tbl : Table) (o : OrderInput) :
    Except String Table :=
  match parse o.orderId with
  | Except.error m => Except.error m
  | Except.ok key =>
    let currency := o.currency.getD "USD"
    let isDel : Nat := if o.isDeleted.getD false then 1 else 0
    match findRow key tbl with
    | none =>
      Except.ok (setRow key
        { partner_id := o.partnerId, status := o.status,
          total_amount := o.totalAmount, currency := currency,
          is_deleted := isDel, created_ts := now, updated_ts := now } tbl)
    | some r =>
      Except.ok (setRow key
        { r with partner_id := o.partnerId, status := o.status,
                 total_amount := o.totalAmount, currency := currency,
                 is_deleted := isDel, updated_ts := now } tbl)

/-- The normalized object returned by the read accessors
(src/db.mjs lines 82–91 and 100–109). -/
structure OrderView where
  orderId : List Nat
  partnerId : String
  status : String
  totalAmount : Int
  currency : String
  createdTs : Nat
  updatedTs : Nat
  isDeleted : Bool
deriving DecidableEq, Repr

/-- Row normalization shared by `getOrderById` and `listByPartner`:
`order_id` is rendered with `stringify` and `is_deleted` coerced to a
boolean with a double negation. -/
def rowToView (key : List Nat) (r : Row) : OrderView :=
  { orderId := stringify key, partnerId := r.partner_id,
    status := r.status, totalAmount := r.total_amount,
    currency := r.currency, createdTs := r.created_ts,
    updatedTs := r.updated_ts, isDeleted := r.is_deleted != 0 }

/-- `getOrderById` from src/db.mjs lines 72–92: encode the identifier
with `parse` (its error propagates before the store is consulted),
select the row by primary key, return `null` (modelled `none`) when no
row matches and the normalized object otherwise. -/
def getOrderById (tbl : Table) (orderId : List Nat) :
    Except String (Option OrderView) :=
  match parse orderId with
  | Except.error m => Except.error m
  | Except.ok key =>
    match findRow key tbl with
    | none => Except.ok none
    | some r => Except.ok (some (rowToView key r))

/-- Insertion step of the `ORDER BY created_ts DESC` sort. -/
def insertByCreatedDesc (p : List Nat × Row) :
    List (List Nat × Row) → List (List Nat × Row)
  | [] => [p]
  | q :: rest =>
    if p.2.created_ts ≥ q.2.created_ts then p :: q :: rest
    else q :: insertByCreatedDesc p rest

/-- `ORDER BY created_ts DESC` as an insertion sort. -/
def sortByCreatedDesc : List (List Nat × Row) → List (List Nat × Row)
  | [] => []
  | p :: rest => insertByCreatedDesc p (sortByCreatedDesc rest)

/-- `listByPartner` from src/db.mjs lines 94–110: select the rows whose
`partner_id` matches, order them by `created_ts` descending, and map
each through the row normalization. -/
def listByPartner (tbl : Table) (pid : String) : List OrderView :=
  (sortByCreatedDesc (tbl.filter (fun e => e.2.partner_id == pid))).map
    (fun e => rowToView e.1 e.2)

/-- The message payload produced by `JSON.parse` in src/consumer.mjs
line 42, with the optional fields the handler defaults
(`currency ?? 'USD'`, `!!isDeleted`). -/
structure Payload where
  orderId : List Nat
  partnerId : String
  status : String
  totalAmount : Int
  currency : Option String
  isDeleted : Option Bool
deriving DecidableEq, Repr

/-- The `order` object built in src/consumer.mjs lines 43–50. -/
def orderOfPayload (p : Payload) : OrderInput :=
  { orderId := p.orderId, partnerId := p.partnerId, status := p.status,
    totalAmount := p.totalAmount,
    currency := some (p.currency.getD "USD"),
    isDeleted := some (p.isDeleted.getD false) }

/-- Behaviour of the store infrastructure at one attempt: either the
attempt fails with an infrastructure error before the statement takes
effect (connection loss, timeout, lock wait, ...), or the store is
available and the statement runs. -/
inductive StoreBehavior where
  | failWith : DbError → StoreBehavior
  | available : StoreBehavior

/-- The error thrown by `parse` seen from the classifier: a plain
`Error` with neither a `code` nor an `errno` property. -/
def invalidIdError : DbError :=
  { code := none, errno := none }

/-- One attempt of the operation wrapped by `pRetry`
(src/consumer.mjs lines 53–62): `await upsertOrder(order)` rejects
with the infrastructure error when the store misbehaves at this
attempt, rejects with the plain `Invalid UUID` error when `parse`
throws inside `upsertOrder`, and resolves otherwise. -/
def upsertAttempt (beh : Nat → StoreBehavior) (now : Nat) (tbl : Table)
    (ord : OrderInput) (k : Nat) : Attempt :=
  match beh k with
  | StoreBehavior.failWith e => Attempt.fail e
  | StoreBehavior.available =>
    match upsertOrder now tbl ord with
    | Except.error _ => Attempt.fail invalidIdError
    | Except.ok _ => Attempt.ok

/-- Whether the per-message handler returned normally (`committed`) or
rejected (`threw`). -/
inductive HandlerOutcome where
  | committed : HandlerOutcome
  | threw : HandlerOutcome
deriving DecidableEq, Repr

/-- Offset semantics of the consumer, from the source's own comment
(src/consumer.mjs line 78): kafkajs commits the offset after the
handler returns, so the consumption cursor advances past the message
exactly when `eachMessage` returns normally; a rejected handler leaves
the offset uncommitted and the message is redelivered. -/
def commitsOffset : HandlerOutcome → Bool
  | HandlerOutcome.committed => true
  | HandlerOutcome.threw => false

/-- The `eachMessage` handler of src/consumer.mjs lines 41–79.
`msg` is the result of `JSON.parse` on the message value, `none` when
parsing throws (a malformed payload makes the whole handler reject,
there is no surrounding try/catch).  On a parsed payload the handler
builds the order object and awaits the `pRetry` call; the handler
returns normally exactly when that promise resolves. -/
def eachMessage (msg : Option Payload) (beh : Nat → StoreBehavior)
    (now : Nat) (tbl : Table) : HandlerOutcome :=
  match msg with
  | none => HandlerOutcome.threw
  | some p =>
    match runPRetry consumerRetryOpts
        (upsertAttempt beh now tbl (orderOfPayload p)) with
    | PRetryResult.success _ _ => HandlerOutcome.committed
    | _ => HandlerOutcome.threw

/-- A concrete row used in concrete instantiations of the theorems. -/
def sampleRowDefault : Row :=
  { partner_id := "p-1001", status := "PLACED", total_amount := 2599,
    currency := "USD", is_deleted := 0, created_ts := 1, updated_ts := 1 }

/-- The 16-byte key of the concrete identifier used in witnesses. -/
def sampleKey : List Nat :=
  hexToBytes (hexForm (codes "123e4567-e89b-12d3-a456-426614174000"))

/-- A concrete permanent store error (duplicate-entry constraint
violation, MySQL errno 1062): neither its code nor its errno is in the
retryable sets. -/
def permanentErr : DbError :=
  { code := some "ER_DUP_ENTRY", errno := some 1062 }

/-- A concrete well-formed payload. -/
def samplePayload : Payload :=
  { orderId := codes "123e4567-e89b-12d3-a456-426614174000",
    partnerId := "p-1001", status := "PLACED", totalAmount := 2599,
    currency := some "USD", isDeleted := some false }

/-- A concrete payload whose `orderId` is not a well-formed
identifier. -/
def badIdPayload : Payload :=
  { orderId := codes "not-a-uuid",
    partnerId := "p-1001", status := "PLACED", totalAmount := 2599,
    currency := some "USD", isDeleted := some false }

end MskDemo

namespace MskDemo

theorem sanity_parse_ok :
    parse (codes "123e4567-e89b-12d3-a456-426614174000") =
      Except.ok (hexToBytes (codes "123e4567e89b12d3a456426614174000")) := by
  rfl

theorem sanity_roundtrip :
    stringify (hexToBytes (hexForm (codes "123E4567-e89b-12d3-a456-426614174000"))) =
      codes "123e4567-e89b-12d3-a456-426614174000" := by
  rfl

theorem hexToBytes_length :
    ∀ h : List Nat, (hexToBytes h).length = h.length / 2
  | [] => rfl
  | [_] => by simp [hexToBytes]
  | c1 :: c2 :: t => by
    have ih := hexToBytes_length t
    simp [hexToBytes, ih]
    omega

/-- C5: `isRetryable` returns `true` exactly when the error's cause is
one of the six transient connection-level codes or the two MySQL
lock-related errnos (1205 lock wait timeout, 1213 deadlock); every
other cause is classified permanent. -/
theorem isRetryable_decision_table (e : DbError) :
    isRetryable e = true ↔
      (e.code = some "PROTOCOL_CONNECTION_LOST" ∨
       e.code = some "ECONNREFUSED" ∨
       e.code = some "ETIMEDOUT" ∨
       e.code = some "EPIPE" ∨
       e.code = some "ECONNRESET" ∨
       e.code = some "PROTOCOL_ENQUEUE_AFTER_FATAL_ERROR" ∨
       e.errno = some 1205 ∨ e.errno = some 1213) := by
  obtain ⟨c, n⟩ := e
  cases c <;> cases n <;>
    (simp [isRetryable, retryableCodes, retryableErrnos]; try tauto)

/-- C8: `parse` (the `encodeId` of the spec) fails with the
`Invalid UUID` error exactly when the input, after removing all
hyphens and lower-casing, is not exactly 32 hexadecimal characters;
otherwise it returns the 16-byte buffer without error. -/
theorem parse_error_iff (s : List Nat) :
    ((∃ m, parse s = Except.error m) ↔
      ¬((hexForm s).length = 32 ∧ (hexForm s).all isLowerHexChar = true)) ∧
    (((hexForm s).length = 32 ∧ (hexForm s).all isLowerHexChar = true) →
      ∃ b, parse s = Except.ok b ∧ b.length = 16) := by
  by_cases hc : (hexForm s).length = 32 ∧ (hexForm s).all isLowerHexChar = true
  · constructor
    · simp [parse, hc]
    · intro _
      refine ⟨hexToBytes (hexForm s), by simp [parse, hc], ?_⟩
      rw [hexToBytes_length, hc.1]
  · refine ⟨⟨fun _ => hc, fun _ => ⟨"Invalid UUID", ?_⟩⟩, fun h => absurd h hc⟩
    simp only [parse]
    rw [if_neg hc]

/-- C8 witness: a concrete malformed identifier is rejected and a
concrete well-formed one yields a 16-byte buffer. -/
theorem parse_error_iff_witness :
    ((hexForm (codes "123e4567-e89b-12d3-a456-426614174000")).length = 32 ∧
      (hexForm (codes "123e4567-e89b-12d3-a456-426614174000")).all
        isLowerHexChar = true) ∧
    (∃ b, parse (codes "123e4567-e89b-12d3-a456-426614174000") =
        Except.ok b ∧ b.length = 16) ∧
    (∃ m, parse (codes "not-a-uuid") = Except.error m) :=
  ⟨⟨rfl, rfl⟩,
   (parse_error_iff (codes "123e4567-e89b-12d3-a456-426614174000")).2
     ⟨rfl, rfl⟩,
   (parse_error_iff (codes "not-a-uuid")).1.2 (by decide)⟩

/-- C10: for an identifier whose hyphen-stripped lower-cased form is
not 32 hexadecimal characters, `getOrderById` propagates the
`Invalid UUID` error of `parse`, and it does so before consulting the
store (the outcome is the same against any table); the `none`
(not-found) result only ever occurs for a well-formed identifier. -/
theorem getOrderById_invalid_id (tbl tbl2 : Table) (id : List Nat) :
    ((parse id).isOk = false →
      (∃ m, getOrderById tbl id = Except.error m) ∧
      getOrderById tbl id = getOrderById tbl2 id) ∧
    (getOrderById tbl id = Except.ok none → (parse id).isOk = true) := by
  cases hp : parse id with
  | error m =>
    refine ⟨fun _ => ⟨⟨m, ?_⟩, ?_⟩, ?_⟩ <;>
      simp [getOrderById, hp, Except.isOk]
  | ok key =>
    refine ⟨fun hfalse => ?_, fun _ => by simp [hp, Except.isOk, Except.toBool]⟩
    simp [hp, Except.isOk, Except.toBool] at hfalse

theorem runPRetryAux_step_ok (o : RetryOpts) (op : Nat → Attempt)
    (rl idx : Nat) (acc : List Nat) (hop : op idx = Attempt.ok) :
    runPRetryAux o op rl idx acc =
      PRetryResult.success (idx + 1) acc.reverse := by
  conv_lhs => rw [runPRetryAux.eq_def]
  rw [hop]

theorem runPRetryAux_abort (o : RetryOpts) (op : Nat → Attempt)
    (rl idx : Nat) (acc : List Nat) (e : DbError)
    (hop : op idx = Attempt.fail e) (he : isRetryable e = false) :
    runPRetryAux o op rl idx acc =
      PRetryResult.aborted e (idx + 1) acc.reverse := by
  conv_lhs => rw [runPRetryAux.eq_def]
  rw [hop]
  simp [he]

theorem runPRetryAux_step_exhaust (o : RetryOpts) (op : Nat → Attempt)
    (idx : Nat) (acc : List Nat) (e : DbError)
    (hop : op idx = Attempt.fail e) (hr : isRetryable e = true) :
    runPRetryAux o op 0 idx acc =
      PRetryResult.exhausted e (idx + 1) acc.reverse := by
  conv_lhs => rw [runPRetryAux.eq_def]
  rw [hop]
  simp [hr]

theorem runPRetryAux_step_retry (o : RetryOpts) (op : Nat → Attempt)
    (rl idx : Nat) (acc : List Nat) (e : DbError)
    (hop : op idx = Attempt.fail e) (hr : isRetryable e = true) :
    runPRetryAux o op (rl + 1) idx acc =
      runPRetryAux o op rl (idx + 1) (backoffWait o idx :: acc) := by
  conv_lhs => rw [runPRetryAux.eq_def]
  rw [hop]
  simp [hr]

theorem runPRetryAux_attempts_le (o : RetryOpts) (op : Nat → Attempt) :
    ∀ (rl idx : Nat) (acc : List Nat),
      attemptsOf (runPRetryAux o op rl idx acc) ≤ idx + rl + 1 := by
  intro rl
  induction rl with
  | zero =>
    intro idx acc
    cases hop : op idx with
    | ok =>
      rw [runPRetryAux_step_ok o op 0 idx acc hop]
      simp only [attemptsOf]
      omega
    | fail e =>
      cases hr : isRetryable e with
      | true =>
        rw [runPRetryAux_step_exhaust o op idx acc e hop hr]
        simp only [attemptsOf]
        omega
      | false =>
        rw [runPRetryAux_abort o op 0 idx acc e hop hr]
        simp only [attemptsOf]
        omega
  | succ rl' ih =>
    intro idx acc
    cases hop : op idx with
    | ok =>
      rw [runPRetryAux_step_ok o op _ idx acc hop]
      simp only [attemptsOf]
      omega
    | fail e =>
      cases hr : isRetryable e with
      | true =>
        rw [runPRetryAux_step_retry o op rl' idx acc e hop hr]
        have := ih (idx + 1) (backoffWait o idx :: acc)
        omega
      | false =>
        rw [runPRetryAux_abort o op _ idx acc e hop hr]
        simp only [attemptsOf]
        omega

theorem runPRetryAux_abort_at (o : RetryOpts) (op : Nat → Attempt)
    (e : DbError) :
    ∀ (k : Nat), ∀ (rl idx : Nat) (acc : List Nat), k ≤ rl →
      (∀ j, j < k → ∃ ej, op (idx + j) = Attempt.fail ej ∧
        isRetryable ej = true) →
      op (idx + k) = Attempt.fail e → isRetryable e = false →
      runPRetryAux o op rl idx acc =
        PRetryResult.aborted e (idx + k + 1)
          (acc.reverse ++ (List.range k).map
            (fun j => backoffWait o (idx + j))) := by
  intro k
  induction k with
  | zero =>
    intro rl idx acc _ _ hop he
    simpa using runPRetryAux_abort o op rl idx acc e (by simpa using hop) he
  | succ k' ih =>
    intro rl idx acc hk hpre hop he
    obtain ⟨e0, hop0, hr0⟩ := hpre 0 (Nat.succ_pos _)
    cases rl with
    | zero => exact absurd hk (by omega)
    | succ rl' =>
      rw [runPRetryAux_step_retry o op rl' idx acc e0
        (by simpa using hop0) hr0]
      have hrec := ih rl' (idx + 1) (backoffWait o idx :: acc) (by omega)
        (fun j hj => by
          obtain ⟨ej, h1, h2⟩ := hpre (j + 1) (by omega)
          refine ⟨ej, ?_, h2⟩
          rw [show idx + 1 + j = idx + (j + 1) by omega]
          exact h1)
        (by rw [show idx + 1 + k' = idx + (k' + 1) by omega]; exact hop)
        he
      have harg : idx + 1 + k' + 1 = idx + (k' + 1) + 1 := by omega
      have hlist : (backoffWait o idx :: acc).reverse ++
          (List.range k').map (fun j => backoffWait o (idx + 1 + j)) =
          acc.reverse ++ (List.range (k' + 1)).map
            (fun j => backoffWait o (idx + j)) := by
        rw [List.range_succ_eq_map]
        simp only [List.map_cons, List.map_map, List.reverse_cons,
          List.append_assoc, List.cons_append, List.nil_append]
        congr 1
        congr 1
        refine List.map_congr_left (fun j _ => ?_)
        simp only [Function.comp_apply]
        congr 1
        omega
      rw [hrec, harg, hlist]

theorem runPRetryAux_no_success (o : RetryOpts) (op : Nat → Attempt)
    (hop : ∀ k, ∃ e, op k = Attempt.fail e) :
    ∀ (rl idx : Nat) (acc : List Nat),
      isSuccess (runPRetryAux o op rl idx acc) = false := by
  intro rl
  induction rl with
  | zero =>
    intro idx acc
    obtain ⟨e, he⟩ := hop idx
    cases hr : isRetryable e with
    | true => rw [runPRetryAux_step_exhaust o op idx acc e he hr]; rfl
    | false => rw [runPRetryAux_abort o op 0 idx acc e he hr]; rfl
  | succ rl' ih =>
    intro idx acc
    obtain ⟨e, he⟩ := hop idx
    cases hr : isRetryable e with
    | true =>
      rw [runPRetryAux_step_retry o op rl' idx acc e he hr]
      exact ih _ _
    | false => rw [runPRetryAux_abort o op _ idx acc e he hr]; rfl

/-- C6: with the consumer's options, an operation that keeps failing
with a retryable error is attempted exactly 3 times (1 initial attempt
plus 2 retries) and then given up; the deterministic backoff sleeps
exactly 2000 ms and then 4000 ms between attempts; no run of the
executor ever makes more than 3 attempts; and every scheduled wait of
the factor-2 exponential backoff lies between the 2000 ms minimum and
the 5000 ms cap. -/
theorem retrySchedule (e : DbError) (h : isRetryable e = true) :
    runPRetry consumerRetryOpts (fun _ => Attempt.fail e) =
      PRetryResult.exhausted e 3 [2000, 4000] ∧
    (∀ op : Nat → Attempt,
      attemptsOf (runPRetry consumerRetryOpts op) ≤ 3) ∧
    backoffWait consumerRetryOpts 0 = 2 * 1000 ∧
    backoffWait consumerRetryOpts 1 = 4 * 1000 ∧
    (∀ k : Nat, 2 * 1000 ≤ backoffWait consumerRetryOpts k ∧
      backoffWait consumerRetryOpts k ≤ 5 * 1000) := by
  refine ⟨?_, ?_, by decide, by decide, ?_⟩
  · show runPRetryAux consumerRetryOpts (fun _ => Attempt.fail e) 2 0 [] = _
    rw [runPRetryAux_step_retry _ _ _ _ _ e rfl h,
        runPRetryAux_step_retry _ _ _ _ _ e rfl h,
        runPRetryAux_step_exhaust _ _ _ _ e rfl h]
    norm_num [backoffWait, consumerRetryOpts]
  · intro op
    simpa using runPRetryAux_attempts_le consumerRetryOpts op 2 0 []
  · intro k
    constructor
    · refine le_min ?_ (by decide)
      calc 2 * 1000 = 2000 * 1 := by decide
        _ ≤ 2000 * 2 ^ k :=
          Nat.mul_le_mul_left 2000 Nat.one_le_two_pow
    · exact min_le_right _ _

/-- C6 witness: the schedule evaluated on a concrete retryable error
(a timeout). -/
theorem retrySchedule_witness :
    isRetryable { code := some "ETIMEDOUT", errno := none } = true ∧
    runPRetry consumerRetryOpts
        (fun _ => Attempt.fail { code := some "ETIMEDOUT", errno := none }) =
      PRetryResult.exhausted { code := some "ETIMEDOUT", errno := none }
        3 [2000, 4000] :=
  ⟨by decide, (retrySchedule _ (by decide)).1⟩

theorem hexVal_lt16 {c : Nat} (h : isLowerHexChar c = true) :
    hexVal c < 16 := by
  simp [isLowerHexChar] at h
  unfold hexVal
  rcases h with ⟨h1, h2⟩ | ⟨h1, h2⟩ <;> split <;> omega

theorem hexCharOf_hexVal {c : Nat} (h : isLowerHexChar c = true) :
    hexCharOf (hexVal c) = c := by
  simp [isLowerHexChar] at h
  unfold hexVal hexCharOf
  rcases h with ⟨h1, h2⟩ | ⟨h1, h2⟩ <;> split <;> split <;> omega

theorem bytesToHex_hexToBytes :
    ∀ h : List Nat, h.all isLowerHexChar = true → h.length % 2 = 0 →
      bytesToHex (hexToBytes h) = h
  | [] => fun _ _ => rfl
  | [c] => fun _ hev => by simp at hev
  | c1 :: c2 :: t => fun hall hev => by
    simp only [List.all_cons, Bool.and_eq_true] at hall
    obtain ⟨hc1, hc2, ht⟩ := hall
    have hv1 := hexVal_lt16 hc1
    have hv2 := hexVal_lt16 hc2
    have hdiv : (16 * hexVal c1 + hexVal c2) / 16 = hexVal c1 := by omega
    have hmod : (16 * hexVal c1 + hexVal c2) % 16 = hexVal c2 := by omega
    have hev' : t.length % 2 = 0 := by
      simp only [List.length_cons] at hev
      omega
    have ih := bytesToHex_hexToBytes t ht hev'
    simp [hexToBytes, bytesToHex, hdiv, hmod, hexCharOf_hexVal hc1,
      hexCharOf_hexVal hc2, ih]

theorem uuidHexChar_ne_hyphen {c : Nat} (h : isUuidHexChar c = true) :
    c ≠ 45 := by
  simp [isUuidHexChar, isLowerHexChar] at h
  omega

theorem isLowerHexChar_jsToLower {c : Nat} (h : isUuidHexChar c = true) :
    isLowerHexChar (jsToLower c) = true := by
  simp [isUuidHexChar, isLowerHexChar] at h ⊢
  unfold jsToLower
  split <;> omega

theorem hexForm_of_groups (g1 g2 g3 g4 g5 : List Nat)
    (hall : (g1 ++ g2 ++ g3 ++ g4 ++ g5).all isUuidHexChar = true) :
    hexForm (g1 ++ 45 :: g2 ++ 45 :: g3 ++ 45 :: g4 ++ 45 :: g5) =
      (g1 ++ g2 ++ g3 ++ g4 ++ g5).map jsToLower := by
  unfold hexForm
  congr 1
  rw [List.all_eq_true] at hall
  have hfi : ∀ gi : List Nat, (∀ c ∈ gi, isUuidHexChar c = true) →
      gi.filter (fun c => !decide (c = 45)) = gi := fun gi hgi =>
    List.filter_eq_self.mpr (fun a ha => by
      simpa using uuidHexChar_ne_hyphen (hgi a ha))
  have m1 : ∀ c ∈ g1, isUuidHexChar c = true := fun c hc =>
    hall c (by simp [hc])
  have m2 : ∀ c ∈ g2, isUuidHexChar c = true := fun c hc =>
    hall c (by simp [hc])
  have m3 : ∀ c ∈ g3, isUuidHexChar c = true := fun c hc =>
    hall c (by simp [hc])
  have m4 : ∀ c ∈ g4, isUuidHexChar c = true := fun c hc =>
    hall c (by simp [hc])
  have m5 : ∀ c ∈ g5, isUuidHexChar c = true := fun c hc =>
    hall c (by simp [hc])
  simp [List.filter_append, List.filter_cons, hfi g1 m1, hfi g2 m2,
    hfi g3 m3, hfi g4 m4, hfi g5 m5]

theorem all_lower_of_groups (g1 g2 g3 g4 g5 : List Nat)
    (hall : (g1 ++ g2 ++ g3 ++ g4 ++ g5).all isUuidHexChar = true) :
    ((g1 ++ g2 ++ g3 ++ g4 ++ g5).map jsToLower).all isLowerHexChar =
      true := by
  rw [List.all_eq_true]
  intro a ha
  rw [List.mem_map] at ha
  obtain ⟨c, hc, rfl⟩ := ha
  rw [List.all_eq_true] at hall
  exact isLowerHexChar_jsToLower (hall c hc)

theorem parse_of_groups (g1 g2 g3 g4 g5 : List Nat)
    (h1 : g1.length = 8) (h2 : g2.length = 4) (h3 : g3.length = 4)
    (h4 : g4.length = 4) (h5 : g5.length = 12)
    (hall : (g1 ++ g2 ++ g3 ++ g4 ++ g5).all isUuidHexChar = true) :
    parse (g1 ++ 45 :: g2 ++ 45 :: g3 ++ 45 :: g4 ++ 45 :: g5) =
      Except.ok (hexToBytes ((g1 ++ g2 ++ g3 ++ g4 ++ g5).map
        jsToLower)) := by
  have hf := hexForm_of_groups g1 g2 g3 g4 g5 hall
  have hlen : ((g1 ++ g2 ++ g3 ++ g4 ++ g5).map jsToLower).length = 32 := by
    simp [h1, h2, h3, h4, h5]
  have hlow := all_lower_of_groups g1 g2 g3 g4 g5 hall
  unfold parse
  rw [hf, if_pos ⟨hlen, hlow⟩]

theorem canonicalUuid_length {s : List Nat} (h : IsCanonicalUuid s) :
    s.length = 36 := by
  obtain ⟨g1, g2, g3, g4, g5, h1, h2, h3, h4, h5, _, rfl⟩ := h
  simp [h1, h2, h3, h4, h5]

/-- C4: for every valid 36-character hyphenated UUID string,
`decodeId (encodeId s)` equals the lower-cased input: `parse` accepts
the canonical form and `stringify` of the resulting 16-byte buffer
reproduces the input lower-cased, hyphens included. -/
theorem decodeId_encodeId_roundtrip (s : List Nat)
    (h : IsCanonicalUuid s) :
    ∃ b, parse s = Except.ok b ∧ stringify b = s.map jsToLower := by
  obtain ⟨g1, g2, g3, g4, g5, h1, h2, h3, h4, h5, hall, rfl⟩ := h
  refine ⟨_, parse_of_groups g1 g2 g3 g4 g5 h1 h2 h3 h4 h5 hall, ?_⟩
  have hlen : ((g1 ++ g2 ++ g3 ++ g4 ++ g5).map jsToLower).length = 32 := by
    simp [h1, h2, h3, h4, h5]
  have hlow := all_lower_of_groups g1 g2 g3 g4 g5 hall
  have hback : bytesToHex (hexToBytes
      ((g1 ++ g2 ++ g3 ++ g4 ++ g5).map jsToLower)) =
      (g1 ++ g2 ++ g3 ++ g4 ++ g5).map jsToLower :=
    bytesToHex_hexToBytes _ hlow (by rw [hlen])
  have hstr : ∀ b : List Nat, stringify b =
      (bytesToHex b).take 8 ++ 45 :: ((bytesToHex b).drop 8).take 4 ++
      45 :: ((bytesToHex b).drop 12).take 4 ++
      45 :: ((bytesToHex b).drop 16).take 4 ++
      45 :: (bytesToHex b).drop 20 := fun b => rfl
  rw [hstr, hback]
  have hsplit : (g1 ++ g2 ++ g3 ++ g4 ++ g5).map jsToLower =
      List.map jsToLower g1 ++ (List.map jsToLower g2 ++
        (List.map jsToLower g3 ++ (List.map jsToLower g4 ++
          List.map jsToLower g5))) := by
    simp [List.map_append, List.append_assoc]
  rw [hsplit]
  have hA : (List.map jsToLower g1).length = 8 := by simp [h1]
  have hB : (List.map jsToLower g2).length = 4 := by simp [h2]
  have hC : (List.map jsToLower g3).length = 4 := by simp [h3]
  have hD : (List.map jsToLower g4).length = 4 := by simp [h4]
  have t8 : (List.map jsToLower g1 ++ (List.map jsToLower g2 ++
      (List.map jsToLower g3 ++ (List.map jsToLower g4 ++
        List.map jsToLower g5)))).take 8 = List.map jsToLower g1 :=
    List.take_left' hA
  have d8 : (List.map jsToLower g1 ++ (List.map jsToLower g2 ++
      (List.map jsToLower g3 ++ (List.map jsToLower g4 ++
        List.map jsToLower g5)))).drop 8 =
      List.map jsToLower g2 ++ (List.map jsToLower g3 ++
        (List.map jsToLower g4 ++ List.map jsToLower g5)) :=
    List.drop_left' hA
  have d12 : (List.map jsToLower g1 ++ (List.map jsToLower g2 ++
      (List.map jsToLower g3 ++ (List.map jsToLower g4 ++
        List.map jsToLower g5)))).drop 12 =
      List.map jsToLower g3 ++ (List.map jsToLower g4 ++
        List.map jsToLower g5) := by
    rw [show (12 : Nat) = 8 + 4 from rfl, ← List.drop_drop, d8]
    exact List.drop_left' hB
  have d16 : (List.map jsToLower g1 ++ (List.map jsToLower g2 ++
      (List.map jsToLower g3 ++ (List.map jsToLower g4 ++
        List.map jsToLower g5)))).drop 16 =
      List.map jsToLower g4 ++ List.map jsToLower g5 := by
    rw [show (16 : Nat) = 12 + 4 from rfl, ← List.drop_drop, d12]
    exact List.drop_left' hC
  have d20 : (List.map jsToLower g1 ++ (List.map jsToLower g2 ++
      (List.map jsToLower g3 ++ (List.map jsToLower g4 ++
        List.map jsToLower g5)))).drop 20 = List.map jsToLower g5 := by
    rw [show (20 : Nat) = 16 + 4 from rfl, ← List.drop_drop, d16]
    exact List.drop_left' hD
  have t12 : ((List.map jsToLower g1 ++ (List.map jsToLower g2 ++
      (List.map jsToLower g3 ++ (List.map jsToLower g4 ++
        List.map jsToLower g5)))).drop 8).take 4 =
      List.map jsToLower g2 := by
    rw [d8]; exact List.take_left' hB
  have t16 : ((List.map jsToLower g1 ++ (List.map jsToLower g2 ++
      (List.map jsToLower g3 ++ (List.map jsToLower g4 ++
        List.map jsToLower g5)))).drop 12).take 4 =
      List.map jsToLower g3 := by
    rw [d12]; exact List.take_left' hC
  have t20 : ((List.map jsToLower g1 ++ (List.map jsToLower g2 ++
      (List.map jsToLower g3 ++ (List.map jsToLower g4 ++
        List.map jsToLower g5)))).drop 16).take 4 =
      List.map jsToLower g4 := by
    rw [d16]; exact List.take_left' hD
  rw [t8, t12, t16, t20, d20]
  have h45 : jsToLower 45 = 45 := rfl
  simp [List.map_append, List.map_cons, h45, List.append_assoc]

/-- C4 witness: the round-trip theorem applied to a concrete
mixed-case canonical identifier. -/
theorem decodeId_encodeId_roundtrip_witness :
    ∃ b, parse (codes "123E4567-E89B-12d3-A456-426614174000") =
        Except.ok b ∧
      stringify b =
        (codes "123E4567-E89B-12d3-A456-426614174000").map jsToLower :=
  decodeId_encodeId_roundtrip (codes "123E4567-E89B-12d3-A456-426614174000")
    ⟨codes "123E4567", codes "E89B", codes "12d3", codes "A456",
     codes "426614174000", rfl, rfl, rfl, rfl, rfl, rfl, rfl⟩

/-- C7 counterexample: the hyphen-free input
`123e4567e89b12d3a456426614174000` is accepted by `parse` although it
does not match the canonical 8-4-4-4-12 hyphenation pattern (it has 32
characters, while every canonical external form has 36). -/
theorem encodeId_noncanonical_accepted :
    (parse (codes "123e4567e89b12d3a456426614174000")).isOk = true ∧
    ¬ IsCanonicalUuid (codes "123e4567e89b12d3a456426614174000") := by
  refine ⟨rfl, fun hc => ?_⟩
  have h36 := canonicalUuid_length hc
  have h32 : (codes "123e4567e89b12d3a456426614174000").length = 32 := rfl
  omega

/-- C7 (amended): `parse` succeeds exactly when the hyphen-stripped,
lower-cased input consists of exactly 32 hexadecimal characters; every
input matching the canonical 8-4-4-4-12 hyphenation pattern satisfies
this and is accepted, but the hyphen placement itself is not checked,
so acceptance is not limited to the canonical external form. -/
theorem encodeId_acceptance (s : List Nat) :
    ((parse s).isOk = true ↔
      ((hexForm s).length = 32 ∧ (hexForm s).all isLowerHexChar = true)) ∧
    (IsCanonicalUuid s → (parse s).isOk = true) := by
  have hmain : (parse s).isOk = true ↔
      ((hexForm s).length = 32 ∧ (hexForm s).all isLowerHexChar = true) := by
    by_cases hc : (hexForm s).length = 32 ∧
        (hexForm s).all isLowerHexChar = true
    · unfold parse
      rw [if_pos hc]
      simp [Except.isOk, Except.toBool, hc]
    · unfold parse
      rw [if_neg hc]
      constructor
      · intro hok
        rw [show (Except.error "Invalid UUID" :
          Except String (List Nat)).isOk = false from rfl] at hok
        exact absurd hok (by simp)
      · intro hcond
        exact absurd hcond hc
  refine ⟨hmain, fun hcan => ?_⟩
  obtain ⟨g1, g2, g3, g4, g5, h1, h2, h3, h4, h5, hall, rfl⟩ := hcan
  rw [parse_of_groups g1 g2 g3 g4 g5 h1 h2 h3 h4 h5 hall]
  rfl

/-- C7 witness: the amended theorem applied to a concrete canonical
identifier. -/
theorem encodeId_acceptance_witness :
    (parse (codes "123e4567-e89b-12d3-a456-426614174000")).isOk = true :=
  (encodeId_acceptance (codes "123e4567-e89b-12d3-a456-426614174000")).2
    ⟨codes "123e4567", codes "e89b", codes "12d3", codes "a456",
     codes "426614174000", rfl, rfl, rfl, rfl, rfl, rfl, rfl⟩

/-- C1 counterexample: a permanent store failure (a duplicate-entry
constraint violation, not in the retryable set) on the first attempt of
a well-formed message makes the handler reject, so the offset is not
committed and the consumption cursor does not advance past the
message. -/
theorem permanentFailureDrop_counterexample :
    isRetryable permanentErr = false ∧
    upsertAttempt (fun _ => StoreBehavior.failWith permanentErr) 0 []
      (orderOfPayload samplePayload) 0 = Attempt.fail permanentErr ∧
    eachMessage (some samplePayload)
      (fun _ => StoreBehavior.failWith permanentErr) 0 [] =
      HandlerOutcome.threw ∧
    commitsOffset (eachMessage (some samplePayload)
      (fun _ => StoreBehavior.failWith permanentErr) 0 []) = false := by
  refine ⟨by decide, rfl, rfl, rfl⟩

/-- C1 (amended): when the store apply of a message fails with a cause
classified permanent at any attempt (after any number of retryable
failures before it), the `pRetry` executor aborts immediately — the
permanent failure triggers no further retry attempts — but the
`AbortError` rejection propagates out of the per-message handler, so
the offset is not committed and the consumption cursor does not
advance past the message; the permanently-failed message blocks the
partition (it is redelivered) instead of being accepted as dropped. -/
theorem permanentFailure_aborts_and_blocks (p : Payload)
    (beh : Nat → StoreBehavior) (now : Nat) (tbl : Table) (e : DbError)
    (k : Nat) (hk : k ≤ consumerRetryOpts.retries)
    (hpre : ∀ j, j < k → ∃ ej,
      upsertAttempt beh now tbl (orderOfPayload p) j = Attempt.fail ej ∧
      isRetryable ej = true)
    (hop : upsertAttempt beh now tbl (orderOfPayload p) k =
      Attempt.fail e)
    (he : isRetryable e = false) :
    runPRetry consumerRetryOpts
        (upsertAttempt beh now tbl (orderOfPayload p)) =
      PRetryResult.aborted e (k + 1)
        ((List.range k).map (backoffWait consumerRetryOpts)) ∧
    eachMessage (some p) beh now tbl = HandlerOutcome.threw ∧
    commitsOffset (eachMessage (some p) beh now tbl) = false := by
  have habort := runPRetryAux_abort_at consumerRetryOpts
    (upsertAttempt beh now tbl (orderOfPayload p)) e k
    consumerRetryOpts.retries 0 [] hk
    (fun j hj => by simpa using hpre j hj)
    (by simpa using hop) he
  have hrun : runPRetry consumerRetryOpts
      (upsertAttempt beh now tbl (orderOfPayload p)) =
      PRetryResult.aborted e (k + 1)
        ((List.range k).map (backoffWait consumerRetryOpts)) := by
    rw [runPRetry, habort]
    simp
  refine ⟨hrun, ?_, ?_⟩ <;> simp [eachMessage, hrun, commitsOffset]

/-- C1 witness: the amended theorem applied with the permanent failure
on the first attempt of a concrete message. -/
theorem permanentFailure_aborts_and_blocks_witness :
    runPRetry consumerRetryOpts
        (upsertAttempt (fun _ => StoreBehavior.failWith permanentErr)
          0 [] (orderOfPayload samplePayload)) =
      PRetryResult.aborted permanentErr 1 [] ∧
    eachMessage (some samplePayload)
        (fun _ => StoreBehavior.failWith permanentErr) 0 [] =
      HandlerOutcome.threw ∧
    commitsOffset (eachMessage (some samplePayload)
        (fun _ => StoreBehavior.failWith permanentErr) 0 []) = false := by
  have h := permanentFailure_aborts_and_blocks samplePayload
    (fun _ => StoreBehavior.failWith permanentErr) 0 [] permanentErr 0
    (by decide) (fun j hj => absurd hj (by omega)) rfl (by decide)
  simpa using h

/-- C2 counterexample: a message whose payload fails to decode (the
`JSON.parse` call throws) and a message whose `orderId` is not a
well-formed identifier both make the handler reject against a fully
available store, so the offset is not committed and the cursor does
not advance past them. -/
theorem decodeFailureSkip_counterexample :
    eachMessage none (fun _ => StoreBehavior.available) 0 [] =
      HandlerOutcome.threw ∧
    commitsOffset (eachMessage none
      (fun _ => StoreBehavior.available) 0 []) = false ∧
    eachMessage (some badIdPayload)
      (fun _ => StoreBehavior.available) 0 [] = HandlerOutcome.threw ∧
    commitsOffset (eachMessage (some badIdPayload)
      (fun _ => StoreBehavior.available) 0 []) = false := by
  refine ⟨rfl, rfl, rfl, rfl⟩

/-- C2 (amended): a decode failure is fatal to the message but does
not let the cursor advance: a malformed payload (`JSON.parse` throws)
rejects the handler directly, and a payload with a malformed
identifier makes every `upsertOrder` attempt throw the non-retryable
`Invalid UUID` error, so the `pRetry` promise never resolves and the
handler rejects whatever the store behaviour — in both cases the
offset is not committed and the message blocks the partition (it is
redelivered) instead of being skipped. -/
theorem decodeFailure_blocks (beh : Nat → StoreBehavior) (now : Nat)
    (tbl : Table) :
    (eachMessage none beh now tbl = HandlerOutcome.threw ∧
     commitsOffset (eachMessage none beh now tbl) = false) ∧
    (∀ p : Payload, (parse p.orderId).isOk = false →
      eachMessage (some p) beh now tbl = HandlerOutcome.threw ∧
      commitsOffset (eachMessage (some p) beh now tbl) = false) := by
  refine ⟨⟨rfl, rfl⟩, fun p hp => ?_⟩
  have hfail : ∀ k, ∃ e,
      upsertAttempt beh now tbl (orderOfPayload p) k = Attempt.fail e := by
    intro k
    cases hb : beh k with
    | failWith e => exact ⟨e, by simp [upsertAttempt, hb]⟩
    | available =>
      refine ⟨invalidIdError, ?_⟩
      cases hpe : parse p.orderId with
      | error m =>
        have : parse (orderOfPayload p).orderId = Except.error m := hpe
        simp [upsertAttempt, hb, upsertOrder, this]
      | ok key => rw [hpe] at hp; simp [Except.isOk, Except.toBool] at hp
  have hns := runPRetryAux_no_success consumerRetryOpts
    (upsertAttempt beh now tbl (orderOfPayload p)) hfail
    consumerRetryOpts.retries 0 []
  cases hres : runPRetry consumerRetryOpts
      (upsertAttempt beh now tbl (orderOfPayload p)) with
  | success n w =>
    rw [runPRetry] at hres
    rw [hres] at hns
    simp [isSuccess] at hns
  | aborted e n w => exact ⟨by simp [eachMessage, hres], by simp [eachMessage, hres, commitsOffset]⟩
  | exhausted e n w => exact ⟨by simp [eachMessage, hres], by simp [eachMessage, hres, commitsOffset]⟩

/-- C2 witness: the amended theorem applied to a concrete message with
a malformed identifier against an available store, and to a concrete
undecodable message. -/
theorem decodeFailure_blocks_witness :
    eachMessage none (fun _ => StoreBehavior.available) 5 [] =
      HandlerOutcome.threw ∧
    eachMessage (some badIdPayload)
      (fun _ => StoreBehavior.available) 5 [] = HandlerOutcome.threw :=
  ⟨(decodeFailure_blocks (fun _ => StoreBehavior.available) 5 []).1.1,
   ((decodeFailure_blocks (fun _ => StoreBehavior.available) 5 []).2
     badIdPayload (by decide)).1⟩

theorem findRow_setRow_same (key : List Nat) (r : Row) :
    ∀ tbl : Table, findRow key (setRow key r tbl) = some r
  | [] => by simp [setRow, findRow]
  | (k, r0) :: rest => by
    by_cases h : k = key
    · simp [setRow, h, findRow]
    · simp [setRow, h, findRow, findRow_setRow_same key r rest]

theorem findRow_setRow_other (key k' : List Nat) (r : Row)
    (hne : k' ≠ key) :
    ∀ tbl : Table, findRow k' (setRow key r tbl) = findRow k' tbl
  | [] => by
    simp [setRow, findRow, Ne.symm hne]
  | (k, r0) :: rest => by
    by_cases h : k = key
    · subst h
      simp [setRow, findRow, Ne.symm hne]
    · simp [setRow, h, findRow, findRow_setRow_other key k' r hne rest]

/-- C3: `upsertOrder` keyed on the encoded `orderId` inserts a fresh
row (with both timestamps set to the write time) when no row exists
under the key, and a second apply with the same `orderId` replaces
exactly the mutable fields `partner_id`, `status`, `total_amount`,
`currency` and `is_deleted`, refreshes `updated_ts` to the new write
time, and leaves `created_ts` at its value from the first insert; rows
under other keys are untouched by both writes. -/
theorem upsertOrder_insert_then_update (now now2 : Nat) (tbl : Table)
    (o o2 : OrderInput) (key : List Nat)
    (hpk : parse o.orderId = Except.ok key)
    (hpk2 : parse o2.orderId = Except.ok key)
    (habs : findRow key tbl = none) :
    ∃ tbl1, upsertOrder now tbl o = Except.ok tbl1 ∧
      findRow key tbl1 = some
        { partner_id := o.partnerId, status := o.status,
          total_amount := o.totalAmount,
          currency := o.currency.getD "USD",
          is_deleted := if o.isDeleted.getD false then 1 else 0,
          created_ts := now, updated_ts := now } ∧
      (∀ k', k' ≠ key → findRow k' tbl1 = findRow k' tbl) ∧
      ∃ tbl2, upsertOrder now2 tbl1 o2 = Except.ok tbl2 ∧
        findRow key tbl2 = some
          { partner_id := o2.partnerId, status := o2.status,
            total_amount := o2.totalAmount,
            currency := o2.currency.getD "USD",
            is_deleted := if o2.isDeleted.getD false then 1 else 0,
            created_ts := now, updated_ts := now2 } ∧
        (∀ k', k' ≠ key → findRow k' tbl2 = findRow k' tbl1) := by
  refine ⟨setRow key
    { partner_id := o.partnerId, status := o.status,
      total_amount := o.totalAmount, currency := o.currency.getD "USD",
      is_deleted := if o.isDeleted.getD false then 1 else 0,
      created_ts := now, updated_ts := now } tbl, ?_, ?_, ?_, ?_⟩
  · simp [upsertOrder, hpk, habs]
  · exact findRow_setRow_same key _ tbl
  · exact fun k' hk' => findRow_setRow_other key k' _ hk' tbl
  · refine ⟨setRow key
      { partner_id := o2.partnerId, status := o2.status,
        total_amount := o2.totalAmount,
        currency := o2.currency.getD "USD",
        is_deleted := if o2.isDeleted.getD false then 1 else 0,
        created_ts := now, updated_ts := now2 } (setRow key
      { partner_id := o.partnerId, status := o.status,
        total_amount := o.totalAmount, currency := o.currency.getD "USD",
        is_deleted := if o.isDeleted.getD false then 1 else 0,
        created_ts := now, updated_ts := now } tbl), ?_, ?_, ?_⟩
    · have hfind1 := findRow_setRow_same key
        { partner_id := o.partnerId, status := o.status,
          total_amount := o.totalAmount,
          currency := o.currency.getD "USD",
          is_deleted := if o.isDeleted.getD false then 1 else 0,
          created_ts := now, updated_ts := now } tbl
      simp [upsertOrder, hpk2, hfind1]
    · exact findRow_setRow_same key _ _
    · exact fun k' hk' => findRow_setRow_other key k' _ hk' _

/-- C3 witness: a concrete insert under a fresh key followed by an
update with the same key and a different status. -/
theorem upsertOrder_insert_then_update_witness :
    ∃ tbl1, upsertOrder 1 []
        { orderId := codes "123e4567-e89b-12d3-a456-426614174000",
          partnerId := "p-1001", status := "PLACED", totalAmount := 2599,
          currency := some "USD", isDeleted := some false } =
        Except.ok tbl1 ∧
      findRow sampleKey tbl1 = some
        { partner_id := "p-1001", status := "PLACED",
          total_amount := 2599, currency := "USD", is_deleted := 0,
          created_ts := 1, updated_ts := 1 } ∧
      (∀ k', k' ≠ sampleKey → findRow k' tbl1 = findRow k' []) ∧
      ∃ tbl2, upsertOrder 2 tbl1
          { orderId := codes "123e4567-e89b-12d3-a456-426614174000",
            partnerId := "p-1001", status := "CAPTURED",
            totalAmount := 2599, currency := some "USD",
            isDeleted := some false } = Except.ok tbl2 ∧
        findRow sampleKey tbl2 = some
          { partner_id := "p-1001", status := "CAPTURED",
            total_amount := 2599, currency := "USD", is_deleted := 0,
            created_ts := 1, updated_ts := 2 } ∧
        (∀ k', k' ≠ sampleKey → findRow k' tbl2 = findRow k' tbl1) := by
  have h := upsertOrder_insert_then_update 1 2 []
    { orderId := codes "123e4567-e89b-12d3-a456-426614174000",
      partnerId := "p-1001", status := "PLACED", totalAmount := 2599,
      currency := some "USD", isDeleted := some false }
    { orderId := codes "123e4567-e89b-12d3-a456-426614174000",
      partnerId := "p-1001", status := "CAPTURED", totalAmount := 2599,
      currency := some "USD", isDeleted := some false }
    sampleKey rfl rfl rfl
  simpa using h

theorem mem_insertByCreatedDesc (p a : List Nat × Row) :
    ∀ l, a ∈ insertByCreatedDesc p l ↔ a = p ∨ a ∈ l
  | [] => by simp [insertByCreatedDesc]
  | q :: rest => by
    by_cases h : p.2.created_ts ≥ q.2.created_ts
    · simp [insertByCreatedDesc, h]
      try tauto
    · simp [insertByCreatedDesc, h, mem_insertByCreatedDesc p a rest]
      try tauto

theorem mem_sortByCreatedDesc (a : List Nat × Row) :
    ∀ l, a ∈ sortByCreatedDesc l ↔ a ∈ l
  | [] => Iff.rfl
  | p :: rest => by
    simp [sortByCreatedDesc, mem_insertByCreatedDesc,
      mem_sortByCreatedDesc a rest]

/-- C9: for a well-formed identifier, `getOrderById` returns the
explicit not-found signal `none` (it does not throw) when no row is
stored under the key, and the decoded normalized record when one is;
`listByPartner` returns the empty list for a partner with no rows and
contains the decoded record of every stored row of the partner. -/
theorem read_accessors (tbl : Table) (id key : List Nat)
    (pid : String) :
    (parse id = Except.ok key →
      (findRow key tbl = none → getOrderById tbl id = Except.ok none) ∧
      (∀ r, findRow key tbl = some r →
        getOrderById tbl id = Except.ok (some (rowToView key r)))) ∧
    ((∀ e ∈ tbl, e.2.partner_id ≠ pid) → listByPartner tbl pid = []) ∧
    (∀ e ∈ tbl, e.2.partner_id = pid →
      rowToView e.1 e.2 ∈ listByPartner tbl pid) := by
  refine ⟨fun hp => ⟨fun habs => ?_, fun r hr => ?_⟩,
    fun hnone => ?_, fun e he hpid => ?_⟩
  · simp [getOrderById, hp, habs]
  · simp [getOrderById, hp, hr]
  · have hfil : tbl.filter (fun e => e.2.partner_id == pid) = [] := by
      rw [List.filter_eq_nil_iff]
      intro a ha
      simp [hnone a ha]
    simp [listByPartner, hfil, sortByCreatedDesc]
  · simp only [listByPartner, List.mem_map]
    refine ⟨e, ?_, rfl⟩
    rw [mem_sortByCreatedDesc]
    rw [List.mem_filter]
    simp [he, hpid]

/-- C9 witness: the accessor theorem applied to the empty table and to
a concrete one-row table. -/
theorem read_accessors_witness :
    getOrderById [] (codes "123e4567-e89b-12d3-a456-426614174000") =
      Except.ok none ∧
    listByPartner [] "p-1001" = [] ∧
    getOrderById [(sampleKey, sampleRowDefault)]
        (codes "123e4567-e89b-12d3-a456-426614174000") =
      Except.ok (some (rowToView sampleKey sampleRowDefault)) ∧
    rowToView sampleKey sampleRowDefault ∈
      listByPartner [(sampleKey, sampleRowDefault)] "p-1001" :=
  ⟨((read_accessors [] (codes "123e4567-e89b-12d3-a456-426614174000")
      sampleKey "p-1001").1 rfl).1 rfl,
   (read_accessors [] (codes "123e4567-e89b-12d3-a456-426614174000")
      sampleKey "p-1001").2.1 (by simp),
   ((read_accessors [(sampleKey, sampleRowDefault)]
      (codes "123e4567-e89b-12d3-a456-426614174000")
      sampleKey "p-1001").1 rfl).2 sampleRowDefault rfl,
   (read_accessors [(sampleKey, sampleRowDefault)]
      (codes "123e4567-e89b-12d3-a456-426614174000")
      sampleKey "p-1001").2.2 (sampleKey, sampleRowDefault)
      (by simp) rfl⟩

/-- C10 witness: a concrete malformed identifier makes `getOrderById`
throw against two different concrete tables, with the same error. -/
theorem getOrderById_invalid_id_witness :
    (∃ m, getOrderById [] (codes "zz") = Except.error m) ∧
    getOrderById [] (codes "zz") =
      getOrderById [(codes "00", sampleRowDefault)] (codes "zz") :=
  (getOrderById_invalid_id [] [(codes "00", sampleRowDefault)]
    (codes "zz")).1 (by decide)

end MskDemo
